import Mathlib

/-!
Shallow embedding of `life_expectancy/cleaning.py`: a four-stage ETL pipeline
(load, melt, clean, transform) over a life-expectancy table.  Tables are
modelled as lists of typed rows; pandas column bookkeeping is modelled as
lists of column names; fallible pandas operations return `Except Unit`.
Floating-point parsing is idealised as exact rational arithmetic (no claim
here depends on rounding).
-/

/-- Characters treated as whitespace by the numeric parser. -/
def isWs (c : Char) : Bool := c = ' ' || c = '\t' || c = '\n' || c = '\r'

/-- ASCII decimal digit 0-9. -/
def isDigitA (c : Char) : Bool := '0' ≤ c && c ≤ '9'

/-- The ranges of the Unicode general category Nd (decimal digits), which is
what Python's regex class `\d` matches on `str` patterns (no `re.ASCII`). -/
def ndRanges : List (Nat × Nat) :=
  [(0x0030, 0x0039), (0x0660, 0x0669), (0x06F0, 0x06F9), (0x07C0, 0x07C9),
   (0x0966, 0x096F), (0x09E6, 0x09EF), (0x0A66, 0x0A6F), (0x0AE6, 0x0AEF),
   (0x0B66, 0x0B6F), (0x0BE6, 0x0BEF), (0x0C66, 0x0C6F), (0x0CE6, 0x0CEF),
   (0x0D66, 0x0D6F), (0x0DE6, 0x0DEF), (0x0E50, 0x0E59), (0x0ED0, 0x0ED9),
   (0x0F20, 0x0F29), (0x1040, 0x1049), (0x1090, 0x1099), (0x17E0, 0x17E9),
   (0x1810, 0x1819), (0x1946, 0x194F), (0x19D0, 0x19D9), (0x1A80, 0x1A89),
   (0x1A90, 0x1A99), (0x1B50, 0x1B59), (0x1BB0, 0x1BB9), (0x1C40, 0x1C49),
   (0x1C50, 0x1C59), (0xA620, 0xA629), (0xA8D0, 0xA8D9), (0xA900, 0xA909),
   (0xA9D0, 0xA9D9), (0xA9F0, 0xA9F9), (0xAA50, 0xAA59), (0xABF0, 0xABF9),
   (0xFF10, 0xFF19), (0x104A0, 0x104A9), (0x10D30, 0x10D39),
   (0x11066, 0x1106F), (0x110F0, 0x110F9), (0x11136, 0x1113F),
   (0x111D0, 0x111D9), (0x112F0, 0x112F9), (0x11450, 0x11459),
   (0x114D0, 0x114D9), (0x11650, 0x11659), (0x116C0, 0x116C9),
   (0x11730, 0x11739), (0x118E0, 0x118E9), (0x11950, 0x11959),
   (0x11C50, 0x11C59), (0x11D50, 0x11D59), (0x11DA0, 0x11DA9),
   (0x11F50, 0x11F59), (0x16A60, 0x16A69), (0x16AC0, 0x16AC9),
   (0x16B50, 0x16B59), (0x1D7CE, 0x1D7FF), (0x1E140, 0x1E149),
   (0x1E2F0, 0x1E2F9), (0x1E4F0, 0x1E4F9), (0x1E950, 0x1E959),
   (0x1FBF0, 0x1FBF9)]

/-- A character matched by the regex class `\d` in a Unicode `str` pattern. -/
def isNd (c : Char) : Bool :=
  ndRanges.any (fun p => decide (p.1 ≤ c.toNat) && decide (c.toNat ≤ p.2))

/-- A character kept by the class `[^\d.-]` substitution: matched by `\d`,
or a literal `.` or `-` (both literal inside the class). -/
def keepChar (c : Char) : Bool := isNd c || c = '.' || c = '-'

/-- Operational model of `re.sub(r"[^\d.-]", "", ·)`: scan the characters,
deleting every character the (negated) class matches, keeping the rest. -/
def reSubStrip : List Char → List Char
  | [] => []
  | c :: cs => if keepChar c then c :: reSubStrip cs else reSubStrip cs

/-- `clean_value` from `cleaning.py`:
`re.sub(r"[^\d.-]", "", str(value))` applied to a string cell. -/
def clean_value (s : String) : String := String.mk (reSubStrip s.data)

/-- Definition following the claim's words (not the source): keep exactly the
ASCII digits 0-9, `.`, and `-`. -/
def cleanValueAsciiSpec (s : String) : String :=
  String.mk (s.data.filter (fun c => isDigitA c || c = '.' || c = '-'))

/-- Definition following the amended claim's words: keep exactly the Unicode
decimal digits (category Nd), `.`, and `-`, in order. -/
def cleanValueUnicodeSpec (s : String) : String :=
  String.mk (s.data.filter keepChar)

/-- Numeric value of a list of ASCII digit characters, most significant first. -/
def natOfDigits (ds : List Char) : Nat :=
  ds.foldl (fun a c => 10 * a + (c.toNat - '0'.toNat)) 0

/-- Parse an unsigned mantissa `digits`, `digits.digits`, `digits.` or
`.digits`, returning the digits' value `m`, the fraction length `f` (so the
mantissa denotes `m / 10 ^ f`) and the unconsumed input. -/
def parseMantissa (cs : List Char) : Option ((Nat × Nat) × List Char) :=
  let ip := cs.takeWhile isDigitA
  let r1 := cs.dropWhile isDigitA
  match r1 with
  | '.' :: r2 =>
    let fp := r2.takeWhile isDigitA
    let r3 := r2.dropWhile isDigitA
    if ip.isEmpty && fp.isEmpty then none
    else some ((natOfDigits ip * 10 ^ fp.length + natOfDigits fp, fp.length), r3)
  | _ => if ip.isEmpty then none else some ((natOfDigits ip, 0), r1)

/-- Parse an optional exponent part `[eE][+-]?digits`. -/
def parseExponent : List Char → Option (Int × List Char)
  | [] => some (0, [])
  | c :: cs =>
    if c = 'e' || c = 'E' then
      let p : Bool × List Char :=
        match cs with
        | '-' :: r => (true, r)
        | '+' :: r => (false, r)
        | r => (false, r)
      let ds := p.2.takeWhile isDigitA
      let r := p.2.dropWhile isDigitA
      if ds.isEmpty then none
      else some ((if p.1 then -(natOfDigits ds : Int) else (natOfDigits ds : Int)), r)
    else some (0, c :: cs)

/-- The exact rational value of a parsed number: sign, mantissa digits `m`
with `f` fractional digits, scaled by the signed power of ten `e`. -/
def decimalVal (neg : Bool) (m f : Nat) (e : Int) : ℚ :=
  let sign : Int := if neg then -1 else 1
  if 0 ≤ e then mkRat (sign * ((m * 10 ^ e.toNat : Nat) : Int)) (10 ^ f)
  else mkRat (sign * (m : Int)) (10 ^ f * 10 ^ (-e).toNat)

/-- Model of `pd.to_numeric(·, errors="coerce")` on a string cell: optional
surrounding whitespace, optional sign, decimal mantissa, optional exponent;
anything else (in particular `""` and `"-"`) fails to `none` (NaN).  The
parsed value is kept as an exact rational. -/
def toNumeric (s : String) : Option ℚ :=
  let cs0 := s.data.dropWhile isWs
  let p : Bool × List Char :=
    match cs0 with
    | '-' :: r => (true, r)
    | '+' :: r => (false, r)
    | r => (false, r)
  match parseMantissa p.2 with
  | none => none
  | some (mf, r1) =>
    match parseExponent r1 with
    | none => none
    | some (e, r2) =>
      if (r2.dropWhile isWs).isEmpty then some (decimalVal p.1 mf.1 mf.2 e)
      else none

/-- Model of `.astype("Int64")` applied to one cell of the coerced year
column: NaN becomes the nullable-integer missing marker `none`; a value that
is not a whole number in the Int64 range makes pandas raise
(`cannot safely cast non-equivalent float64 to int64`), modelled as
`Except.error`. -/
def castInt64 : Option ℚ → Except Unit (Option Int)
  | none => Except.ok none
  | some q =>
    if q.den = 1 ∧ -9223372036854775808 ≤ q.num ∧ q.num < 9223372036854775808 then
      Except.ok (some q.num)
    else Except.error ()

/-- A row of the long table produced by `melt`: the compound identifier
column `unit,sex,age,geo\time`, the former column name as `year`, and the
cell as `value` (both still strings). -/
structure LongRow where
  id : String
  year : String
  value : String
deriving DecidableEq

/-- A row after `clean_df`: year coerced to nullable Int64, value coerced to
a nullable numeric. -/
structure CleanedRow where
  id : String
  year : Option Int
  value : Option ℚ
deriving DecidableEq

/-- Decidable equality for fallible results, so concrete pipeline runs can
be checked by evaluation. -/
instance exceptDecEq {α : Type} [DecidableEq α] : DecidableEq (Except Unit α) := fun a b =>
  match a, b with
  | Except.error (), Except.error () => isTrue rfl
  | Except.ok x, Except.ok y =>
    if h : x = y then isTrue (by rw [h]) else isFalse (fun hh => h (by injection hh))
  | Except.error (), Except.ok _ => isFalse (fun hh => Except.noConfusion hh)
  | Except.ok _, Except.error () => isFalse (fun hh => Except.noConfusion hh)

/-- Mapping `Except` over a list, failing on the first error: models
evaluating a pandas column expression over every row of a frame. -/
def mapE (f : α → Except Unit β) : List α → Except Unit (List β)
  | [] => Except.ok []
  | a :: as =>
    match f a with
    | Except.error e => Except.error e
    | Except.ok b =>
      match mapE f as with
      | Except.error e => Except.error e
      | Except.ok bs => Except.ok (b :: bs)

/-- The `assign` body of `clean_df` on one row: coerce `year` via
`to_numeric` + `astype("Int64")` (whose cast can raise), and `value` via
`clean_value` + `to_numeric`. -/
def cleanRow (r : LongRow) : Except Unit CleanedRow :=
  match castInt64 (toNumeric r.year) with
  | Except.error e => Except.error e
  | Except.ok y => Except.ok ⟨r.id, y, toNumeric (clean_value r.value)⟩

/-- `clean_df` from `cleaning.py`: assign the coerced `year` and cleaned
`value` columns, then `dropna(subset=["value"])`. -/
def clean_df (rows : List LongRow) : Except Unit (List CleanedRow) :=
  match mapE cleanRow rows with
  | Except.error e => Except.error e
  | Except.ok l => Except.ok (l.filter (fun c => c.value.isSome))

/-- A long-table row survives the `dropna` filter iff its cleaned value
parses numerically. -/
def survives (r : LongRow) : Bool := (toNumeric (clean_value r.value)).isSome

/-- The year cell `clean_df` stores for a row whose cast does not raise. -/
def yearTotal (r : LongRow) : Option Int :=
  match castInt64 (toNumeric r.year) with
  | Except.ok y => y
  | Except.error _ => none

/-- The cleaned row `clean_df` builds for a row whose cast does not raise. -/
def cleanRowTotal (r : LongRow) : CleanedRow :=
  ⟨r.id, yearTotal r, toNumeric (clean_value r.value)⟩

/-- Model of Python's `str.split(",")` / pandas `Series.str.split(",")` on a
single cell: always at least one part; consecutive commas give empty parts. -/
def splitCommaChars : List Char → List (List Char)
  | [] => [[]]
  | c :: cs =>
    if c = ',' then [] :: splitCommaChars cs
    else
      match splitCommaChars cs with
      | [] => [[c]]
      | l :: ls => (c :: l) :: ls

/-- Split a string cell on commas. -/
def splitComma (s : String) : List String := (splitCommaChars s.data).map String.mk

/-- A row after `transform_df`: the four fields split out of the compound
identifier (absent trailing positions are `none`, as `expand=True` pads short
rows with NaN), with the original compound column dropped. -/
structure FinalRow where
  unit : Option String
  sex : Option String
  age : Option String
  region : Option String
  year : Option Int
  value : Option ℚ
deriving DecidableEq

/-- The widest split of any row's identifier: with `expand=True` this is the
number of columns of the expanded frame, so positional column `j` exists only
when `j < maxParts`. -/
def maxParts (rows : List CleanedRow) : Nat :=
  rows.foldl (fun a r => max a (splitComma r.id).length) 0

/-- The row built by the four `assign` lambdas of `transform_df`:
positional parts 0,1,2,3 of the split identifier (missing when the row has
fewer parts), year and value carried over, compound column dropped. -/
def splitRowFn (r : CleanedRow) : FinalRow :=
  ⟨(splitComma r.id).get? 0, (splitComma r.id).get? 1, (splitComma r.id).get? 2,
   (splitComma r.id).get? 3, r.year, r.value⟩

/-- The split-and-drop stage of `transform_df`.  Indexing column `j` of the
`expand=True` split raises `KeyError` when no row has more than `j` parts;
the code reads columns 0..3, so the whole stage raises unless some row's
identifier has at least 4 comma-separated parts. -/
def transformAssign (rows : List CleanedRow) : Except Unit (List FinalRow) :=
  if maxParts rows < 4 then Except.error ()
  else Except.ok (rows.map splitRowFn)

/-- Drop a literal sequence of expected characters from the front of the
input, failing if it is not there. -/
def stripLead : List Char → List Char → Option (List Char)
  | [], cs => some cs
  | _ :: _, [] => none
  | p :: ps, c :: cs => if c = p then stripLead ps cs else none

/-- Read a double-quoted string literal body up to the closing quote.
Escape sequences are not generated by the pipeline and are conservatively
rejected rather than modelled. -/
def readLit : List Char → Option (List Char × List Char)
  | [] => none
  | c :: cs =>
    if c = '"' then some ([], cs)
    else if c = '\\' then none
    else
      match readLit cs with
      | none => none
      | some (l, r) => some (c :: l, r)

/-- Parse the fragment of the pandas `query` expression language that the
interpolated string `region == "<country>"` can produce: one or more
comparisons `region == "<literal>"` joined by `or`.  Returns the list of
compared literals; `none` models a query syntax error (which pandas raises). -/
def parseDisjuncts : Nat → List Char → Option (List (List Char))
  | 0, _ => none
  | fuel + 1, cs =>
    match stripLead ("region == \"").data cs with
    | none => none
    | some cs1 =>
      match readLit cs1 with
      | none => none
      | some (lit, rest) =>
        if rest.isEmpty then some [lit]
        else
          match stripLead (" or ").data rest with
          | none => none
          | some rest2 =>
            match parseDisjuncts fuel rest2 with
            | none => none
            | some ls => some (lit :: ls)

/-- Model of `DataFrame.query` on the expression built by `transform_df`:
parse the expression, then filter with the resulting row predicate
(`region` compared by exact equality; a missing region never equals a
string literal). -/
def pdQuery (s : String) : Option (FinalRow → Bool) :=
  match parseDisjuncts (s.data.length + 1) s.data with
  | none => none
  | some ls => some (fun r => ls.any (fun l => r.region == some (String.mk l)))

/-- The f-string `f'region == "{country}"'` interpolated by `transform_df`. -/
def queryString (country : String) : String := "region == \"" ++ country ++ "\""

/-- `transform_df` from `cleaning.py`: split the compound identifier into
`unit`, `sex`, `age`, `region`, drop the compound column, and filter with
`query(f'region == "{country}"')`. -/
def transform_df (rows : List CleanedRow) (country : String) :
    Except Unit (List FinalRow) :=
  match transformAssign rows with
  | Except.error e => Except.error e
  | Except.ok split =>
    match pdQuery (queryString country) with
    | none => Except.error ()
    | some pred => Except.ok (split.filter pred)

/-- The raw wide table as loaded by `read_csv`: the compound identifier
column's cells plus one `(year label, cells)` pair per year column, in
column order.  Cells are kept as strings. -/
structure WideTable where
  idVals : List String
  yearCols : List (String × List String)

/-- Every year column has exactly one cell per row of the table. -/
def Rectangular (t : WideTable) : Prop :=
  ∀ c ∈ t.yearCols, c.2.length = t.idVals.length

/-- One year column's contribution to the melt: its cells paired with the
identifier cells, in row order. -/
def meltCols (ids : List String) : List (String × List String) → List LongRow
  | [] => []
  | c :: rest =>
    (ids.zip c.2).map (fun p => ⟨p.1, c.1, p.2⟩) ++ meltCols ids rest

/-- Model of `df.melt(id_vars=["unit,sex,age,geo\\time"], var_name="year",
value_name="value")`: column-major stacking of the year columns. -/
def melt (t : WideTable) : List LongRow := meltCols t.idVals t.yearCols

/-- The columns of the melted frame: the id column kept first, then the
`var_name` and `value_name` columns. -/
def meltColumns : List String := ["unit,sex,age,geo\\time", "year", "value"]

/-- Column bookkeeping of `transform_df`: `assign` appends the four new
columns in keyword order, `drop` removes the compound column. -/
def transformColumns (cols : List String) : List String :=
  (cols ++ ["unit", "sex", "age", "region"]).erase "unit,sex,age,geo\\time"

/-- Column bookkeeping of `df.loc[:, sel]`: project to exactly the selected
columns, raising (modelled as `none`) if one is absent. -/
def locColumns (cols sel : List String) : Option (List String) :=
  if sel.all (fun c => cols.contains c) then some sel else none

/-- The selection list of the final projection in `clean_data`. -/
def finalSelect : List String := ["unit", "sex", "age", "region", "year", "value"]

/-- The written CSV file, modelled at record granularity: the header row and
the data records in order (numeric formatting is not modelled; no claim
depends on it). -/
structure CsvFile where
  header : List String
  records : List FinalRow
deriving DecidableEq

/-- `clean_data` from `cleaning.py` after loading: melt the wide table,
clean it, transform it for the requested country, project the final columns,
and write the CSV (modelled as returning the written file). -/
def clean_data (t : WideTable) (country : String) : Except Unit CsvFile :=
  match clean_df (melt t) with
  | Except.error e => Except.error e
  | Except.ok cleaned =>
    match transform_df cleaned country with
    | Except.error e => Except.error e
    | Except.ok transformed =>
      match locColumns (transformColumns meltColumns) finalSelect with
      | none => Except.error ()
      | some hdr => Except.ok ⟨hdr, transformed⟩

/-! ### Helper lemmas about the value-cleaning scan -/

/-- The deletion scan of the negated class substitution is a filter by the
kept-character class. -/
theorem reSubStrip_eq_filter (cs : List Char) : reSubStrip cs = cs.filter keepChar := by
  induction cs with
  | nil => rfl
  | cons c cs ih =>
    by_cases h : keepChar c <;> simp [reSubStrip, List.filter_cons, h, ih]

/-! ### Helper lemmas about `clean_df` -/

/-- When every year cell casts without raising, the column evaluation
succeeds and produces exactly the per-row cleaned rows. -/
theorem mapE_cleanRow_ok_of (rows : List LongRow)
    (h : ∀ r ∈ rows, castInt64 (toNumeric r.year) ≠ Except.error ()) :
    mapE cleanRow rows = Except.ok (rows.map cleanRowTotal) := by
  induction rows with
  | nil => rfl
  | cons r rest ih =>
    cases hc : castInt64 (toNumeric r.year) with
    | error e =>
      cases e
      exact absurd hc (h r (List.mem_cons_self r rest))
    | ok y =>
      have hrest := ih (fun x hx => h x (List.mem_cons_of_mem r hx))
      simp [mapE, cleanRow, hc, hrest, cleanRowTotal, yearTotal]

/-- A successful column evaluation means no year cell raised, and the result
is the per-row cleaned rows. -/
theorem mapE_cleanRow_ok_elim (rows : List LongRow) (l : List CleanedRow)
    (h : mapE cleanRow rows = Except.ok l) :
    (∀ r ∈ rows, castInt64 (toNumeric r.year) ≠ Except.error ()) ∧
      l = rows.map cleanRowTotal := by
  induction rows generalizing l with
  | nil =>
    refine ⟨by simp, ?_⟩
    simpa [mapE] using h.symm
  | cons r rest ih =>
    cases hc : castInt64 (toNumeric r.year) with
    | error e =>
      simp [mapE, cleanRow, hc] at h
    | ok y =>
      cases hm : mapE cleanRow rest with
      | error e => simp [mapE, cleanRow, hc, hm] at h
      | ok l2 =>
        obtain ⟨h1, h2⟩ := ih l2 hm
        simp only [mapE, cleanRow, hc, hm] at h
        refine ⟨?_, ?_⟩
        · intro x hx
          rcases List.mem_cons.mp hx with hx | hx
          · subst hx; simp [hc]
          · exact h1 x hx
        · injection h with h3
          rw [← h3, h2]
          simp [cleanRowTotal, yearTotal, hc]

/-- When no year cell raises, `clean_df` returns the assigned rows filtered
by a parseable value. -/
theorem clean_df_ok_of (rows : List LongRow)
    (h : ∀ r ∈ rows, castInt64 (toNumeric r.year) ≠ Except.error ()) :
    clean_df rows =
      Except.ok ((rows.map cleanRowTotal).filter (fun c => c.value.isSome)) := by
  simp [clean_df, mapE_cleanRow_ok_of rows h]

/-- A successful `clean_df` run is exactly the assigned rows filtered by a
parseable value, and no year cell raised. -/
theorem clean_df_ok_elim (rows : List LongRow) (out : List CleanedRow)
    (h : clean_df rows = Except.ok out) :
    (∀ r ∈ rows, castInt64 (toNumeric r.year) ≠ Except.error ()) ∧
      out = (rows.map cleanRowTotal).filter (fun c => c.value.isSome) := by
  cases hm : mapE cleanRow rows with
  | error e => simp [clean_df, hm] at h
  | ok l =>
    obtain ⟨h1, h2⟩ := mapE_cleanRow_ok_elim rows l hm
    simp only [clean_df, hm] at h
    injection h with h3
    exact ⟨h1, by rw [← h3, h2]⟩

/-- Filtering the assigned rows by a parseable value is mapping over the
surviving input rows: the dropna filter commutes with row assignment. -/
theorem filter_map_cleanRowTotal (l : List LongRow) :
    (l.map cleanRowTotal).filter (fun c => c.value.isSome) =
      (l.filter survives).map cleanRowTotal := by
  induction l with
  | nil => rfl
  | cons r rest ih =>
    have hv : (cleanRowTotal r).value.isSome = survives r := rfl
    by_cases hs : survives r = true <;>
      simp [List.filter_cons, hv, hs, ih]

/-! ### Concrete example rows used by witnesses -/

/-- A long-table row whose value cell carries an annotation letter. -/
def exRowGood : LongRow := ⟨"YR,F,Y10,PT", "2020", "81.2 b"⟩

/-- A long-table row whose value cell is the not-available marker. -/
def exRowColon : LongRow := ⟨"YR,F,Y10,ES", "2020", ":"⟩

/-- A long-table row whose value cell is a bare minus sign. -/
def exRowDash : LongRow := ⟨"YR,F,Y10,FR", "2020", "-"⟩

/-- A long-table row with an unparseable year but a parseable value. -/
def exRowBadYear : LongRow := ⟨"YR,F,Y10,DE", "xx", "81.2 b"⟩

/-! ### Claim C3 -/

/-- Claim C3 (counterexample): `clean_value` does not remove every character
outside ASCII digits, `.`, `-`: the Arabic-Indic digit `٣` (U+0663) is
matched by the Unicode class `\d` and survives, so the output differs from
the ASCII-only filter of the claim and contains a non-ASCII character. -/
theorem clean_value_ascii_counterexample :
    clean_value "٣" = "٣" ∧ clean_value "٣" ≠ cleanValueAsciiSpec "٣" ∧
      ¬∀ c ∈ (clean_value "٣").data, c.toNat < 128 := by
  decide

/-- Claim C3 (amended): `clean_value` removes exactly those characters that
are not a Unicode decimal digit (regex class `\d`, category Nd — which
includes non-ASCII digits), a period, or a minus sign, preserving the kept
characters in their original order (the output is a sublist of the input). -/
theorem clean_value_unicode_filter (s : String) :
    clean_value s = cleanValueUnicodeSpec s ∧ (clean_value s).data.Sublist s.data := by
  constructor
  · simp [clean_value, cleanValueUnicodeSpec, reSubStrip_eq_filter]
  · simp only [clean_value, reSubStrip_eq_filter]
    exact List.filter_sublist s.data

/-! ### Claim C4 -/

/-- Claim C4: the value-cleaning character filter is idempotent:
cleaning an already-cleaned string changes nothing. -/
theorem clean_value_idempotent (s : String) :
    clean_value (clean_value s) = clean_value s := by
  simp only [clean_value, reSubStrip_eq_filter]
  rw [List.filter_filter]
  simp

/-! ### Claim C10 -/

/-- Claim C10: `clean_df` modifies only the `year` and `value` columns: a
successful run returns exactly the surviving input rows, in their original
relative order, each transformed by the per-row assignment, and that
assignment leaves the compound identifier column unchanged. -/
theorem clean_df_frame_effect (rows : List LongRow) (out : List CleanedRow)
    (h : clean_df rows = Except.ok out) :
    out = (rows.filter survives).map cleanRowTotal ∧
      ∀ r ∈ rows, (cleanRowTotal r).id = r.id := by
  obtain ⟨-, ho⟩ := clean_df_ok_elim rows out h
  exact ⟨ho.trans (filter_map_cleanRowTotal rows), fun r _ => rfl⟩

/-- Claim C10 (witness): a concrete run where one row is dropped. -/
theorem clean_df_frame_effect_witness :
    clean_df [exRowGood, exRowColon] =
        Except.ok [⟨"YR,F,Y10,PT", some 2020, some (mkRat 406 5)⟩] ∧
      ([⟨"YR,F,Y10,PT", some 2020, some (mkRat 406 5)⟩] : List CleanedRow) =
          (([exRowGood, exRowColon].filter survives).map cleanRowTotal) ∧
        ∀ r ∈ [exRowGood, exRowColon], (cleanRowTotal r).id = r.id :=
  ⟨by decide, clean_df_frame_effect [exRowGood, exRowColon] _ (by decide)⟩

/-! ### Claim C6 -/

/-- Claim C6 (counterexample): the claim fails on the code: a row whose year
string is `"2020.5"` fails integer parsing, and its value `"1"` parses
numerically, yet `clean_df` does not keep the row with a missing year —
the nullable-integer cast raises and the whole call fails fatally. -/
theorem clean_df_year_crash_counterexample :
    clean_df [⟨"YR,F,Y10,PT", "2020.5", "1"⟩] = Except.error () ∧
      toNumeric (clean_value "1") ≠ none := by
  decide

/-- Claim C6 (amended): provided no year string parses to a non-integral
(or out-of-Int64-range) number — such a year makes `clean_df` raise —
`clean_df` succeeds; a row whose year fails numeric parsing entirely is kept
with a missing year marker whenever its cleaned value parses; dropping rows
with unparseable cleaned values is the only row-dropping step; and every row
of the cleaned table has a non-missing numeric value. -/
theorem clean_df_year_missing_amended (rows : List LongRow)
    (h : ∀ r ∈ rows, castInt64 (toNumeric r.year) ≠ Except.error ()) :
    ∃ out, clean_df rows = Except.ok out ∧
      (∀ o ∈ out, o.value.isSome) ∧
      out.length = (rows.filter survives).length ∧
      ∀ r ∈ rows, toNumeric r.year = none → survives r →
        (⟨r.id, none, toNumeric (clean_value r.value)⟩ : CleanedRow) ∈ out := by
  refine ⟨(rows.filter survives).map cleanRowTotal, ?_, ?_, ?_, ?_⟩
  · rw [clean_df_ok_of rows h, filter_map_cleanRowTotal]
  · intro o ho
    obtain ⟨r, hr, rfl⟩ := List.mem_map.mp ho
    have hs := (List.mem_filter.mp hr).2
    simpa [cleanRowTotal, survives] using hs
  · simp
  · intro r hr hy hs
    have hm : r ∈ rows.filter survives := List.mem_filter.mpr ⟨hr, hs⟩
    have : cleanRowTotal r = ⟨r.id, none, toNumeric (clean_value r.value)⟩ := by
      simp [cleanRowTotal, yearTotal, hy, castInt64]
    exact this ▸ List.mem_map_of_mem cleanRowTotal hm

/-- Claim C6 (witness): a run with one malformed-year row (kept, year
missing) and one dropped row. -/
theorem clean_df_year_missing_witness :
    (∀ r ∈ [exRowBadYear, exRowColon], castInt64 (toNumeric r.year) ≠ Except.error ()) ∧
      ∃ out, clean_df [exRowBadYear, exRowColon] = Except.ok out ∧
        (∀ o ∈ out, o.value.isSome) ∧
        out.length = ([exRowBadYear, exRowColon].filter survives).length ∧
        ∀ r ∈ [exRowBadYear, exRowColon], toNumeric r.year = none → survives r →
          (⟨r.id, none, toNumeric (clean_value r.value)⟩ : CleanedRow) ∈ out :=
  ⟨by decide, clean_df_year_missing_amended [exRowBadYear, exRowColon] (by decide)⟩

/-! ### Claim C7 -/

/-- Claim C7: a value cell whose stripped form is empty (such as `":"`) or a
bare `"-"` fails the numeric parse and its row is dropped by `clean_df`; the
output has exactly one row per surviving input row, and every output value
is a genuinely parsed number, never a coerced substitute. -/
theorem clean_df_drops_unparseable (rows : List LongRow) (out : List CleanedRow)
    (h : clean_df rows = Except.ok out) :
    toNumeric "" = none ∧ toNumeric "-" = none ∧ clean_value ":" = "" ∧
      (∀ r ∈ rows, clean_value r.value = "" ∨ clean_value r.value = "-" →
        survives r = false) ∧
      out.length = (rows.filter survives).length ∧
      ∀ o ∈ out, o.value.isSome ∧
        ∃ r ∈ rows, survives r ∧ o.value = toNumeric (clean_value r.value) := by
  obtain ⟨-, ho⟩ := clean_df_ok_elim rows out h
  rw [ho, filter_map_cleanRowTotal]
  refine ⟨by decide, by decide, by decide, ?_, by simp, ?_⟩
  · intro r _ hv
    rcases hv with hv | hv <;> simp [survives, hv] <;> decide
  · intro o ho2
    obtain ⟨r, hr, rfl⟩ := List.mem_map.mp ho2
    obtain ⟨hr1, hr2⟩ := List.mem_filter.mp hr
    exact ⟨by simpa [cleanRowTotal, survives] using hr2, r, hr1, hr2, rfl⟩

/-- Claim C7 (witness): a run containing a `":"` row and a `"-"` row (both
dropped) and one surviving row. -/
theorem clean_df_drops_unparseable_witness :
    clean_df [exRowColon, exRowDash, exRowGood] =
        Except.ok [⟨"YR,F,Y10,PT", some 2020, some (mkRat 406 5)⟩] ∧
      (toNumeric "" = none ∧ toNumeric "-" = none ∧ clean_value ":" = "" ∧
        (∀ r ∈ [exRowColon, exRowDash, exRowGood],
          clean_value r.value = "" ∨ clean_value r.value = "-" → survives r = false) ∧
        ([⟨"YR,F,Y10,PT", some 2020, some (mkRat 406 5)⟩] : List CleanedRow).length =
            ([exRowColon, exRowDash, exRowGood].filter survives).length ∧
        ∀ o ∈ ([⟨"YR,F,Y10,PT", some 2020, some (mkRat 406 5)⟩] : List CleanedRow),
          o.value.isSome ∧ ∃ r ∈ [exRowColon, exRowDash, exRowGood],
            survives r ∧ o.value = toNumeric (clean_value r.value)) :=
  ⟨by decide, clean_df_drops_unparseable [exRowColon, exRowDash, exRowGood] _ (by decide)⟩

/-! ### Helper lemmas about `melt` -/

/-- One melted year column contributes one long row per table row. -/
theorem meltChunk_get? (ids cells : List String) (name : String) :
    ∀ i, i < ids.length → i < cells.length →
      ((ids.zip cells).map (fun p => (⟨p.1, name, p.2⟩ : LongRow))).get? i =
        some ⟨ids.getD i "", name, cells.getD i ""⟩ := by
  induction ids generalizing cells with
  | nil => intro i hi; simp at hi
  | cons a as ih =>
    intro i hi1 hi2
    cases cells with
    | nil => simp at hi2
    | cons b bs =>
      cases i with
      | zero => simp
      | succ n =>
        have := ih bs n (Nat.lt_of_succ_lt_succ hi1) (Nat.lt_of_succ_lt_succ hi2)
        simpa using this

/-- Row count of the melt: one row per (table row, year column) pair. -/
theorem meltCols_length (cols : List (String × List String)) (ids : List String)
    (hrect : ∀ c ∈ cols, c.2.length = ids.length) :
    (meltCols ids cols).length = cols.length * ids.length := by
  induction cols with
  | nil => simp [meltCols]
  | cons c rest ih =>
    have hc : c.2.length = ids.length := hrect c (List.mem_cons_self c rest)
    have hrest := ih (fun x hx => hrect x (List.mem_cons_of_mem c hx))
    simp [meltCols, hrest, hc, Nat.succ_mul, Nat.add_comm, Nat.min_self]

/-- The melted cell at flat position `j * n + i` is the identifier of row
`i`, the name of year column `j`, and the matching wide cell. -/
theorem meltCols_get? (cols : List (String × List String)) (ids : List String)
    (hrect : ∀ c ∈ cols, c.2.length = ids.length) :
    ∀ j i, j < cols.length → i < ids.length →
      (meltCols ids cols).get? (j * ids.length + i) =
        some ⟨ids.getD i "", (cols.getD j ("", [])).1,
          (cols.getD j ("", [])).2.getD i ""⟩ := by
  induction cols with
  | nil => intro j i hj; simp at hj
  | cons c rest ih =>
    intro j i hj hi
    have hc : c.2.length = ids.length := hrect c (List.mem_cons_self c rest)
    have hchunk :
        ((ids.zip c.2).map (fun p => (⟨p.1, c.1, p.2⟩ : LongRow))).length = ids.length := by
      simp [hc, Nat.min_self]
    cases j with
    | zero =>
      rw [Nat.zero_mul, Nat.zero_add, meltCols,
        List.get?_append (by rw [hchunk]; exact hi)]
      simpa using meltChunk_get? ids c.2 c.1 i hi (by rw [hc]; exact hi)
    | succ j =>
      have hidx : (j + 1) * ids.length + i = ids.length + (j * ids.length + i) := by
        rw [Nat.succ_mul]; omega
      rw [meltCols, hidx, List.get?_append_right (by rw [hchunk]; exact Nat.le_add_right _ _)]
      rw [hchunk, Nat.add_sub_cancel_left]
      simpa using ih (fun x hx => hrect x (List.mem_cons_of_mem c hx)) j i
        (Nat.lt_of_succ_lt_succ hj) hi

/-! ### Claim C5 -/

/-- Claim C5: for a non-empty rectangular wide table with `n` rows and `k`
year columns, the melt has exactly `n * k` rows and 3 columns, and each
(row `i`, year column `j`) pair of the input yields exactly one long row —
the one at flat position `j * n + i`, carrying row `i`'s identifier
unchanged, year column `j`'s name, and the matching cell. -/
theorem melt_shape (t : WideTable) (hrect : Rectangular t)
    (hn : 0 < t.idVals.length) (hk : 0 < t.yearCols.length) :
    (melt t).length = t.idVals.length * t.yearCols.length ∧
      meltColumns.length = 3 ∧
      ∀ j i, j < t.yearCols.length → i < t.idVals.length →
        (melt t).get? (j * t.idVals.length + i) =
          some ⟨t.idVals.getD i "", (t.yearCols.getD j ("", [])).1,
            (t.yearCols.getD j ("", [])).2.getD i ""⟩ := by
  refine ⟨?_, rfl, ?_⟩
  · rw [melt, meltCols_length t.yearCols t.idVals hrect, Nat.mul_comm]
  · exact meltCols_get? t.yearCols t.idVals hrect

/-- The two-row, two-year-column wide table of the witnesses. -/
def exWide : WideTable :=
  ⟨["YR,F,Y10,PT", "YR,F,Y10,ES"],
   [("2020", ["81.2 b", "79.1"]), ("2021", [":", "80.3 e"])]⟩

/-- Claim C5 (witness): the melt of a concrete 2 x 2 wide table. -/
theorem melt_shape_witness :
    Rectangular exWide ∧ 0 < exWide.idVals.length ∧ 0 < exWide.yearCols.length ∧
      ((melt exWide).length = exWide.idVals.length * exWide.yearCols.length ∧
        meltColumns.length = 3 ∧
        ∀ j i, j < exWide.yearCols.length → i < exWide.idVals.length →
          (melt exWide).get? (j * exWide.idVals.length + i) =
            some ⟨exWide.idVals.getD i "", (exWide.yearCols.getD j ("", [])).1,
              (exWide.yearCols.getD j ("", [])).2.getD i ""⟩) :=
  ⟨by unfold Rectangular; decide, by decide, by decide,
    melt_shape exWide (by unfold Rectangular; decide) (by decide) (by decide)⟩

/-! ### Helper lemmas about the query parser -/

/-- Dropping an expected literal prefix from exactly that prefix plus a rest
yields the rest. -/
theorem stripLead_append (p : List Char) : ∀ cs, stripLead p (p ++ cs) = some cs := by
  induction p with
  | nil => intro cs; rfl
  | cons c p ih => intro cs; simp [stripLead, ih]

/-- Reading a quoted literal whose body contains no quote and no backslash
consumes exactly the body and the closing quote. -/
theorem readLit_append (l : List Char) (rest : List Char)
    (h : ∀ c ∈ l, c ≠ '"' ∧ c ≠ '\\') :
    readLit (l ++ '"' :: rest) = some (l, rest) := by
  induction l with
  | nil => rfl
  | cons c l ih =>
    obtain ⟨h1, h2⟩ := h c (List.mem_cons_self c l)
    have ih2 := ih (fun x hx => h x (List.mem_cons_of_mem c hx))
    simp [readLit, h1, h2, ih2]

/-- The characters of the interpolated query string. -/
theorem queryString_data (country : String) :
    (queryString country).data = ("region == \"").data ++ (country.data ++ ['"']) := by
  simp [queryString, String.data_append]

/-- Parsing the query interpolated from a country code that contains no
quote and no backslash yields exactly one comparison literal: the code. -/
theorem parseDisjuncts_queryString (country : String) (fuel : Nat)
    (h : ∀ c ∈ country.data, c ≠ '"' ∧ c ≠ '\\') :
    parseDisjuncts (fuel + 1) (queryString country).data = some [country.data] := by
  rw [queryString_data]
  have hr : readLit (country.data ++ '"' :: []) = some (country.data, []) :=
    readLit_append country.data [] h
  simp only [parseDisjuncts, stripLead_append, hr, List.isEmpty_nil, if_true]

/-- For a clean country code, the modelled `query` predicate is exact
equality of the region field with the code. -/
theorem pdQuery_queryString (country : String)
    (h : ∀ c ∈ country.data, c ≠ '"' ∧ c ≠ '\\') :
    ∃ p, pdQuery (queryString country) = some p ∧
      ∀ r, p r = (r.region == some country) := by
  cases hl : (queryString country).data.length with
  | zero =>
    have := congrArg List.length (queryString_data country)
    simp [hl] at this
  | succ n =>
    refine ⟨fun r => [country.data].any (fun l => r.region == some (String.mk l)), ?_, ?_⟩
    · rw [pdQuery, parseDisjuncts_queryString country _ h]
    · intro r
      simp [List.any_cons]

/-! ### Claim C1 -/

/-- Claim C1 (counterexample): the region-filter guarantee does not hold for
every caller-supplied code string: interpolating the code
`ES" or region == "PT` into the query keeps a row whose region is `PT`,
which differs from the supplied code, so not every output row's region
equals the code. -/
theorem transform_df_region_injection_counterexample :
    transform_df [⟨"YR,F,Y10,PT", some 2020, some (mkRat 81 1)⟩]
        "ES\" or region == \"PT" =
      Except.ok
        [⟨some "YR", some "F", some "Y10", some "PT", some 2020, some (mkRat 81 1)⟩] ∧
      (some "PT" : Option String) ≠ some "ES\" or region == \"PT" := by
  decide

/-- Claim C1 (amended): for every code string containing no double quote and
no backslash (so the interpolated query is the literal comparison), every
row of the table produced by `transform_df` has its region field exactly
equal to the code, under case-sensitive exact string equality. -/
theorem transform_df_region_soundness (rows : List CleanedRow) (country : String)
    (out : List FinalRow)
    (hc : ∀ c ∈ country.data, c ≠ '"' ∧ c ≠ '\\')
    (h : transform_df rows country = Except.ok out) :
    ∀ r ∈ out, r.region = some country := by
  obtain ⟨p, hp, hpr⟩ := pdQuery_queryString country hc
  cases ha : transformAssign rows with
  | error e => simp [transform_df, ha] at h
  | ok split =>
    simp only [transform_df, ha, hp] at h
    injection h with h3
    intro r hr
    rw [← h3] at hr
    have hb := (List.mem_filter.mp hr).2
    rw [hpr r] at hb
    exact eq_of_beq hb

/-- The cleaned rows used by the transformer witnesses. -/
def exCleaned : List CleanedRow :=
  [⟨"YR,F,Y10,PT", some 2020, some (mkRat 81 1)⟩,
   ⟨"YR,F,Y10,ES", some 2020, some (mkRat 79 1)⟩]

/-- Claim C1 (witness): filtering two concrete rows for `"PT"` keeps exactly
the `PT` row, whose region equals the code. -/
theorem transform_df_region_soundness_witness :
    (∀ c ∈ ("PT" : String).data, c ≠ '"' ∧ c ≠ '\\') ∧
      transform_df exCleaned "PT" =
        Except.ok
          [⟨some "YR", some "F", some "Y10", some "PT", some 2020, some (mkRat 81 1)⟩] ∧
      ∀ r ∈ [(⟨some "YR", some "F", some "Y10", some "PT", some 2020,
          some (mkRat 81 1)⟩ : FinalRow)], r.region = some ("PT" : String) :=
  ⟨by decide, by decide,
    transform_df_region_soundness exCleaned "PT" _ (by decide) (by decide)⟩

/-! ### Helper lemmas about `maxParts` -/

/-- The running maximum of the split widths never drops below its seed. -/
theorem foldl_max_init_le (l : List CleanedRow) :
    ∀ a, a ≤ l.foldl (fun a r => max a (splitComma r.id).length) a := by
  induction l with
  | nil => intro a; exact Nat.le_refl a
  | cons r rest ih =>
    intro a
    exact Nat.le_trans (Nat.le_max_left a (splitComma r.id).length) (ih _)

/-- Every row's split width is bounded by the table's maximal split width. -/
theorem splitLen_le_maxParts (rows : List CleanedRow) (r : CleanedRow) (hr : r ∈ rows) :
    (splitComma r.id).length ≤ maxParts rows := by
  rw [maxParts]
  generalize 0 = a
  induction rows generalizing a with
  | nil => cases hr
  | cons x rest ih =>
    rcases List.mem_cons.mp hr with h | h
    · subst h
      exact Nat.le_trans (Nat.le_max_right a (splitComma r.id).length)
        (foldl_max_init_le rest _)
    · exact ih h _

/-! ### Claim C2 -/

/-- Claim C2 (counterexample): `transform_df` does not always succeed: when
every row's identifier has fewer than four comma-separated parts (here a
single row with three parts), the expanded split has no positional column 3,
the lookup raises, and the call fails instead of producing missing fields. -/
theorem transform_df_split_counterexample :
    transform_df [⟨"YR,F,Y10", some 2020, some (mkRat 81 1)⟩] "PT" =
      Except.error () := by
  decide

/-- Claim C2 (amended): provided at least one row's identifier has at least
four comma-separated parts (so the expanded split has positional columns
0..3) and the region code contains no quote and no backslash, `transform_df`
does not fail: the split stage produces one row per input row whose four
fields are the positional parts 0,1,2,3 of the comma-split identifier, with
missing values at absent trailing positions, and the whole call succeeds. -/
theorem transform_df_split_amended (rows : List CleanedRow) (country : String)
    (hc : ∀ c ∈ country.data, c ≠ '"' ∧ c ≠ '\\')
    (hw : ∃ r ∈ rows, 4 ≤ (splitComma r.id).length) :
    ∃ split, transformAssign rows = Except.ok split ∧
      split.length = rows.length ∧
      (∀ i, split.get? i = (rows.get? i).map splitRowFn) ∧
      (∀ r : CleanedRow,
        (splitRowFn r).unit = (splitComma r.id).get? 0 ∧
        (splitRowFn r).sex = (splitComma r.id).get? 1 ∧
        (splitRowFn r).age = (splitComma r.id).get? 2 ∧
        (splitRowFn r).region = (splitComma r.id).get? 3) ∧
      ∃ out, transform_df rows country = Except.ok out := by
  obtain ⟨r, hr, h4⟩ := hw
  have hmax : 4 ≤ maxParts rows :=
    Nat.le_trans h4 (splitLen_le_maxParts rows r hr)
  have ha : transformAssign rows = Except.ok (rows.map splitRowFn) := by
    rw [transformAssign, if_neg (Nat.not_lt.mpr hmax)]
  obtain ⟨p, hp, -⟩ := pdQuery_queryString country hc
  refine ⟨rows.map splitRowFn, ha, by simp, ?_, fun r => ⟨rfl, rfl, rfl, rfl⟩, ?_⟩
  · intro i; exact List.get?_map splitRowFn rows i
  · exact ⟨(rows.map splitRowFn).filter p, by simp [transform_df, ha, hp]⟩

/-- The cleaned rows of the C2 witness: one full identifier and one with a
missing fourth field. -/
def exCleanedShort : List CleanedRow :=
  [⟨"YR,F,Y10,PT", some 2020, some (mkRat 81 1)⟩,
   ⟨"YR,F,Y10", some 2021, some (mkRat 79 1)⟩]

/-- Claim C2 (witness): a concrete table where one row is missing its fourth
identifier field; the split succeeds, that row's region is missing, and the
whole transformation succeeds. -/
theorem transform_df_split_amended_witness :
    (∀ c ∈ ("PT" : String).data, c ≠ '"' ∧ c ≠ '\\') ∧
      (∃ r ∈ exCleanedShort, 4 ≤ (splitComma r.id).length) ∧
      ∃ split, transformAssign exCleanedShort = Except.ok split ∧
        split.length = exCleanedShort.length ∧
        (∀ i, split.get? i = (exCleanedShort.get? i).map splitRowFn) ∧
        (∀ r : CleanedRow,
          (splitRowFn r).unit = (splitComma r.id).get? 0 ∧
          (splitRowFn r).sex = (splitComma r.id).get? 1 ∧
          (splitRowFn r).age = (splitComma r.id).get? 2 ∧
          (splitRowFn r).region = (splitComma r.id).get? 3) ∧
        ∃ out, transform_df exCleanedShort "PT" = Except.ok out :=
  ⟨by decide, by decide,
    transform_df_split_amended exCleanedShort "PT" (by decide) (by decide)⟩

/-! ### Claim C8 -/

/-- Claim C8: whenever the pipeline produces an output file, its header is
exactly `unit, sex, age, region, year, value` in that order — the melt fixes
the intermediate column order regardless of the input's column order, and
the final projection both checks and fixes the output order. -/
theorem clean_data_column_contract (t : WideTable) (country : String) (f : CsvFile)
    (h : clean_data t country = Except.ok f) :
    f.header = ["unit", "sex", "age", "region", "year", "value"] := by
  cases h1 : clean_df (melt t) with
  | error e => simp [clean_data, h1] at h
  | ok cleaned =>
    cases h2 : transform_df cleaned country with
    | error e => simp [clean_data, h1, h2] at h
    | ok transformed =>
      have h3 : locColumns (transformColumns meltColumns) finalSelect =
          some ["unit", "sex", "age", "region", "year", "value"] := by decide
      simp only [clean_data, h1, h2, h3] at h
      injection h with h4
      rw [← h4]

/-- Claim C8 (witness): a full concrete pipeline run and its header. -/
theorem clean_data_column_contract_witness :
    clean_data exWide "PT" =
        Except.ok
          ⟨["unit", "sex", "age", "region", "year", "value"],
            [⟨some "YR", some "F", some "Y10", some "PT", some 2020,
              some (mkRat 406 5)⟩]⟩ ∧
      (⟨["unit", "sex", "age", "region", "year", "value"],
          [⟨some "YR", some "F", some "Y10", some "PT", some 2020,
            some (mkRat 406 5)⟩]⟩ : CsvFile).header =
        ["unit", "sex", "age", "region", "year", "value"] :=
  ⟨by decide, clean_data_column_contract exWide "PT" _ (by decide)⟩

/-! ### Claim C9 -/

/-- Claim C9: when the target region code (quote- and backslash-free, as any
real code is) matches no row of the cleaned table — whose identifiers are
split into at least the four positional columns — the pipeline does not
fail: it writes a file with the correct six-column header and zero data
records. -/
theorem clean_data_empty_result (t : WideTable) (country : String)
    (cleaned : List CleanedRow)
    (hc : ∀ c ∈ country.data, c ≠ '"' ∧ c ≠ '\\')
    (h1 : clean_df (melt t) = Except.ok cleaned)
    (h2 : 4 ≤ maxParts cleaned)
    (h3 : ∀ r ∈ cleaned, (splitComma r.id).get? 3 ≠ some country) :
    clean_data t country =
      Except.ok ⟨["unit", "sex", "age", "region", "year", "value"], []⟩ := by
  obtain ⟨p, hp, hpr⟩ := pdQuery_queryString country hc
  have ha : transformAssign cleaned = Except.ok (cleaned.map splitRowFn) := by
    rw [transformAssign, if_neg (Nat.not_lt.mpr h2)]
  have hfil : (cleaned.map splitRowFn).filter p = [] := by
    rw [List.filter_eq_nil_iff]
    intro a ha2
    obtain ⟨r, hr, rfl⟩ := List.mem_map.mp ha2
    rw [hpr]
    intro hb
    exact h3 r hr (eq_of_beq hb)
  have ht : transform_df cleaned country = Except.ok [] := by
    simp [transform_df, ha, hp, hfil]
  have hl : locColumns (transformColumns meltColumns) finalSelect =
      some ["unit", "sex", "age", "region", "year", "value"] := by decide
  simp [clean_data, h1, ht, hl]

/-- The cleaned table of the concrete 2 x 2 wide example: the `":"` cell is
dropped, the three others survive. -/
def exCleanedWide : List CleanedRow :=
  [⟨"YR,F,Y10,PT", some 2020, some (mkRat 406 5)⟩,
   ⟨"YR,F,Y10,ES", some 2020, some (mkRat 791 10)⟩,
   ⟨"YR,F,Y10,ES", some 2021, some (mkRat 803 10)⟩]

/-- Claim C9 (witness): filtering the concrete table for the unmatched code
`"XX"` yields the header-only file. -/
theorem clean_data_empty_result_witness :
    (∀ c ∈ ("XX" : String).data, c ≠ '"' ∧ c ≠ '\\') ∧
      clean_df (melt exWide) = Except.ok exCleanedWide ∧
      4 ≤ maxParts exCleanedWide ∧
      (∀ r ∈ exCleanedWide, (splitComma r.id).get? 3 ≠ some ("XX" : String)) ∧
      clean_data exWide "XX" =
        Except.ok ⟨["unit", "sex", "age", "region", "year", "value"], []⟩ :=
  ⟨by decide, by decide, by decide, by decide,
    clean_data_empty_result exWide "XX" exCleanedWide (by decide) (by decide)
      (by decide) (by decide)⟩

/-- A wide table whose only identifier has just three comma-separated
parts, so its cleaned rows have no fourth split field. -/
def exWideShort : WideTable := ⟨["YR,F,Y10"], [("2020", ["81.2 b"])]⟩

/-- Claim C9 (counterexample): the empty-result guarantee is not
unconditional: here the code `"PT"` matches zero rows of the cleaned table
(every cleaned row's region position is missing), yet the pipeline does not
produce a valid empty file - the positional split has no column 3 and
`clean_data` fails with an error. -/
theorem clean_data_empty_result_counterexample :
    clean_df (melt exWideShort) =
        Except.ok [⟨"YR,F,Y10", some 2020, some (mkRat 406 5)⟩] ∧
      (∀ r ∈ [(⟨"YR,F,Y10", some 2020, some (mkRat 406 5)⟩ : CleanedRow)],
        (splitComma r.id).get? 3 ≠ some ("PT" : String)) ∧
      clean_data exWideShort "PT" = Except.error () := by
  decide
